import Mathlib

/-!
Shallow embedding of the storage layer and selected HTTP handlers of the
vinayakgarments repository (`server/storage.ts` `MemStorage`, the inventory
routes in `server/routes/inventory.ts`, and the auth handlers in the routes
module), together with theorems settling the frozen claims about them.

JavaScript `Map` objects are modelled as association lists in insertion
order: `set` replaces the value in place when the key is present and appends
otherwise, `values()` is the list of values in insertion order.  Timestamps
(`Date`) are modelled as `Int` milliseconds.  JS numbers that the code uses
as integers (ids, stock counts, deltas) are `Nat`/`Int`.  `null`/`undefined`
are modelled with `Option`; where the source tests truthiness of a string or
number, the model spells the truthiness out (`""` and `0` are falsy).
Methods are state-passing functions `State → ... → Result × State`; a thrown
error is an `Except.error` result paired with the state at the throw point.
-/

namespace VG

/-! ### JS `Map` as an association list -/

def mapGet [DecidableEq κ] (k : κ) : List (κ × β) → Option β
  | [] => none
  | (k', v) :: rest => if k' = k then some v else mapGet k rest

def mapSet [DecidableEq κ] (k : κ) (v : β) (m : List (κ × β)) : List (κ × β) :=
  if m.any (fun p => decide (p.1 = k)) then
    m.map (fun p => if p.1 = k then (k, v) else p)
  else
    m ++ [(k, v)]

def mapDelete [DecidableEq κ] (k : κ) (m : List (κ × β)) : List (κ × β) :=
  m.filter (fun p => decide (p.1 ≠ k))

def mapValues (m : List (κ × β)) : List β :=
  m.map Prod.snd

/-! ### Data model (from `shared/schema.ts` `$inferSelect` types, with the
fields `purchase_price`, `tax`, `unit`, `barcode` of `products` omitted:
no modelled operation reads or writes them).  `timestamp` columns are `Int`
milliseconds, nullable columns are `Option`. -/

structure User where
  id : Nat
  email : String
  password : String
  displayName : Option String
  mobileNumber : String
  resetToken : Option String
  resetTokenExpiry : Option Int
  verificationToken : Option String
  verificationTokenExpiry : Option Int
  isVerified : Bool
  isAdmin : Bool
  isSuspended : Bool
  createdAt : Int
deriving Repr, DecidableEq

/-- The record stored in `MemStorage.pendingUsers` (the object literal built
in `createPendingUser`; the optional `mobileNumber` of the interface type is
never set there). -/
structure PendingUser where
  email : String
  verificationToken : Option String
  verificationTokenExpiry : Option Int
deriving Repr, DecidableEq

structure Product where
  id : Nat
  name : String
  description : Option String
  price : Int
  imageUrl : String
  category : String
  featured : Bool
  stock : Int
  minStock : Option Int
  createdAt : Int
deriving Repr, DecidableEq

structure InventoryLog where
  id : Nat
  productId : Nat
  quantity : Int
  type : String
  note : Option String
  timestamp : Int
deriving Repr, DecidableEq

structure ContactMessage where
  id : Nat
  name : String
  email : String
  message : String
deriving Repr, DecidableEq

structure UserPreference where
  id : Nat
  userId : Nat
  emailNotifications : Bool
  orderUpdates : Bool
  promotions : Bool
  accountAlerts : Bool
  darkMode : Bool
  language : String
  currency : String
deriving Repr, DecidableEq

structure UserAddress where
  id : Nat
  userId : Nat
  addressLine1 : String
  addressLine2 : Option String
  city : String
  state : String
  postalCode : String
  country : Option String
  isPrimary : Option Bool
  label : Option String
  phone : Option String
  createdAt : Int
deriving Repr, DecidableEq

/-- The whole `MemStorage` instance state: the six `Map`s plus the
`currentIds` counters (and the separate `currentInventoryLogId`). -/
structure State where
  users : List (Nat × User)
  pendingUsers : List (String × PendingUser)
  products : List (Nat × Product)
  messages : List (Nat × ContactMessage)
  userPrefs : List (Nat × UserPreference)
  addresses : List (Nat × UserAddress)
  inventoryLogs : List (Nat × InventoryLog)
  currentUserId : Nat
  currentProductId : Nat
  currentMessageId : Nat
  currentPreferenceId : Nat
  currentAddressId : Nat
  currentInventoryLogId : Nat
deriving Repr, DecidableEq

/-- Errors thrown by `MemStorage` methods, named after the messages of the
`Error` objects the source throws.  The spec's taxonomy (§7) classifies
`noPendingRegistration`, `userNotFound`, `productNotFound` and
`addressNotFound` as `NotFoundError`. -/
inductive StorageError where
  | userAlreadyExists
  | noPendingRegistration
  | userNotFound
  | productNotFound
  | addressNotFound
deriving Repr, DecidableEq

/-- JS `x || null` on a nullable string: the empty string is falsy and
collapses to `null`. -/
def orNullStr : Option String → Option String
  | some s => if s = "" then none else some s
  | none => none

/-! ### User operations (`MemStorage`) -/

/-- Argument of `createUser`.  `none` means the field was not supplied. -/
structure CreateUserData where
  email : String
  password : String
  mobileNumber : Option String := none
  isAdmin : Option Bool := none
  isSuspended : Option Bool := none
  isVerified : Option Bool := none
  verificationToken : Option String := none
  verificationTokenExpiry : Option Int := none
  createdAt : Option Int := none
deriving Repr, DecidableEq

def adminEmail : String := "vinayak.dhiman.012@gmail.com"

/-- `MemStorage.getUserByEmail`: first user (in insertion order) whose email
matches. -/
def getUserByEmail (s : State) (email : String) : Option User :=
  (mapValues s.users).find? (fun user => decide (user.email = email))

/-- `MemStorage.createUser`.  `now` models `new Date()`.  A `Date` value is
always truthy, so `userData.verificationTokenExpiry || null` is the identity
on the modelled `Option Int`. -/
def createUser (s : State) (userData : CreateUserData) (now : Int) : User × State :=
  let id := s.currentUserId
  let isAdmin := match userData.isAdmin with
    | some b => b
    | none => decide (userData.email = adminEmail)
  let user : User := {
    email := userData.email
    password := userData.password
    displayName := none
    mobileNumber := userData.mobileNumber.getD ""
    id := id
    resetToken := none
    resetTokenExpiry := none
    verificationToken := orNullStr userData.verificationToken
    verificationTokenExpiry := userData.verificationTokenExpiry
    isVerified := userData.isVerified.getD false
    isAdmin := isAdmin
    isSuspended := userData.isSuspended.getD false
    createdAt := userData.createdAt.getD now }
  (user, { s with users := mapSet id user s.users, currentUserId := s.currentUserId + 1 })

/-- `MemStorage.createPendingUser`: blocked when a full user with the email
exists; otherwise stores (create-or-overwrite) the pending record keyed by
email. -/
def createPendingUser (s : State) (email verificationToken : String)
    (tokenExpiry : Int) : Except StorageError PendingUser × State :=
  match getUserByEmail s email with
  | some _ => (.error .userAlreadyExists, s)
  | none =>
    let pendingUser : PendingUser := {
      email := email
      verificationToken := some verificationToken
      verificationTokenExpiry := some tokenExpiry }
    (.ok pendingUser, { s with pendingUsers := mapSet email pendingUser s.pendingUsers })

/-- `MemStorage.getPendingUserByEmail`. -/
def getPendingUserByEmail (s : State) (email : String) : Option PendingUser :=
  mapGet email s.pendingUsers

/-- `MemStorage.verifyEmailToken`.  The guard
`!pendingUser || !pendingUser.verificationToken ||
!pendingUser.verificationTokenExpiry` treats a `null` or empty-string token
and a `null` expiry as invalid (JS truthiness); then the token must match
and `new Date() > expiry` must be false.  The method performs no writes, so
the returned state is the input state at every exit. -/
def verifyEmailToken (s : State) (email token : String) (now : Int) : Bool × State :=
  match getPendingUserByEmail s email with
  | none => (false, s)
  | some pendingUser =>
    match pendingUser.verificationToken, pendingUser.verificationTokenExpiry with
    | some t, some expiry =>
      if t = "" then (false, s)
      else if t ≠ token then (false, s)
      else if now > expiry then (false, s)
      else (true, s)
    | _, _ => (false, s)

/-- `MemStorage.completeUserRegistration`: requires only that a pending
record exists (the token and expiry are not re-checked), creates the full
user with `isVerified: true`, then deletes the pending record. -/
def completeUserRegistration (s : State) (email password : String)
    (now : Int) : Except StorageError User × State :=
  match getPendingUserByEmail s email with
  | none => (.error .noPendingRegistration, s)
  | some _ =>
    let (user, s1) := createUser s
      { email := email, password := password, isVerified := some true } now
    (.ok user, { s1 with pendingUsers := mapDelete email s1.pendingUsers })

/-! ### Product and inventory operations (`MemStorage`) -/

/-- `Partial<Product>` for `updateProduct`; `none` means the key is absent
from the partial object, so the spread `{...product, ...updates}` keeps the
old field. -/
structure ProductUpdates where
  id : Option Nat := none
  name : Option String := none
  description : Option (Option String) := none
  price : Option Int := none
  imageUrl : Option String := none
  category : Option String := none
  featured : Option Bool := none
  stock : Option Int := none
  minStock : Option (Option Int) := none
  createdAt : Option Int := none
deriving Repr, DecidableEq

/-- The spread `{...product, ...updates}`. -/
def mergeProduct (product : Product) (updates : ProductUpdates) : Product := {
  id := updates.id.getD product.id
  name := updates.name.getD product.name
  description := updates.description.getD product.description
  price := updates.price.getD product.price
  imageUrl := updates.imageUrl.getD product.imageUrl
  category := updates.category.getD product.category
  featured := updates.featured.getD product.featured
  stock := updates.stock.getD product.stock
  minStock := updates.minStock.getD product.minStock
  createdAt := updates.createdAt.getD product.createdAt }

/-- `MemStorage.updateProduct`. -/
def updateProduct (s : State) (id : Nat) (updates : ProductUpdates) :
    Except StorageError Product × State :=
  match mapGet id s.products with
  | none => (.error .productNotFound, s)
  | some product =>
    let updatedProduct := mergeProduct product updates
    (.ok updatedProduct, { s with products := mapSet id updatedProduct s.products })

/-- Argument of `createInventoryLog` (`InsertInventoryLog`). -/
structure InsertInventoryLog where
  productId : Nat
  quantity : Int
  type : String
  note : Option String := none
deriving Repr, DecidableEq

/-- `MemStorage.createInventoryLog`: allocates the next log id, stamps
`new Date()`, and stores the entry (`log.note || null` collapses an empty
note to `null`). -/
def createInventoryLog (s : State) (log : InsertInventoryLog) (now : Int) :
    InventoryLog × State :=
  let id := s.currentInventoryLogId
  let newLog : InventoryLog := {
    id := id
    productId := log.productId
    quantity := log.quantity
    type := log.type
    note := orNullStr log.note
    timestamp := now }
  (newLog, { s with inventoryLogs := mapSet id newLog s.inventoryLogs,
                    currentInventoryLogId := s.currentInventoryLogId + 1 })

/-- `MemStorage.updateProductStock`: clamps the new stock at zero
(`Math.max(0, product.stock + quantityChange)`), writes the product, then
appends a ledger entry carrying the requested delta verbatim with type tag
`'add'` when the delta is positive and `'remove'` otherwise. -/
def updateProductStock (s : State) (productId : Nat) (quantityChange : Int)
    (now : Int) : Except StorageError Product × State :=
  match mapGet productId s.products with
  | none => (.error .productNotFound, s)
  | some product =>
    let newStock := max 0 (product.stock + quantityChange)
    match updateProduct s productId { stock := some newStock } with
    | (.error e, s1) => (.error e, s1)
    | (.ok updatedProduct, s1) =>
      let (_, s2) := createInventoryLog s1
        { productId := productId
          quantity := quantityChange
          type := if quantityChange > 0 then "add" else "remove"
          note := some ("Stock updated by "
            ++ (if quantityChange > 0 then "adding" else "removing")
            ++ " " ++ toString quantityChange.natAbs ++ " units") } now
      (.ok updatedProduct, s2)

/-- `product.minStock || 5`: both `null` and `0` are falsy. -/
def minStockOr5 (product : Product) : Int :=
  match product.minStock with
  | some m => if m ≠ 0 then m else 5
  | none => 5

/-- The filter callback of `getLowStockProducts`: `if (threshold)` is a JS
truthiness test, so a supplied threshold of `0` takes the per-product
`minStock || 5` branch exactly like an absent threshold. -/
def lowStockPred (threshold : Option Int) (product : Product) : Bool :=
  match threshold with
  | some t =>
    if t ≠ 0 then decide (product.stock ≤ t)
    else decide (product.stock ≤ minStockOr5 product)
  | none => decide (product.stock ≤ minStockOr5 product)

/-- `MemStorage.getLowStockProducts`: the filtered products sorted
ascending by stock (`.sort((a, b) => a.stock - b.stock)`, a stable
ascending sort, modelled by the stable `mergeSort`).  The method performs
no writes, so the state is returned unchanged. -/
def getLowStockProducts (s : State) (threshold : Option Int) :
    List Product × State :=
  (((mapValues s.products).filter (lowStockPred threshold)).mergeSort
    (fun a b => decide (a.stock ≤ b.stock)), s)

/-- The filter of the spec sentence, word for word:
`stock <= (threshold ?? product.minStock ?? 5)` with `??` the
nullish-coalescing operator, followed by the same ascending sort.  Written
only to be compared with `getLowStockProducts` above. -/
def getLowStockProductsSpec (s : State) (threshold : Option Int) : List Product :=
  ((mapValues s.products).filter (fun product =>
      decide (product.stock ≤ threshold.getD (product.minStock.getD 5)))).mergeSort
    (fun a b => decide (a.stock ≤ b.stock))

/-! ### Address operations (`MemStorage`) -/

/-- Argument of `createUserAddress` (`InsertUserAddress`). -/
structure InsertUserAddress where
  userId : Nat
  addressLine1 : String
  addressLine2 : Option String := none
  city : String
  state : String
  postalCode : String
  country : Option String := none
  isPrimary : Option Bool := none
  label : Option String := none
  phone : Option String := none
deriving Repr, DecidableEq

/-- `Partial<UserAddress>` for `updateUserAddress`. -/
structure AddressUpdates where
  id : Option Nat := none
  userId : Option Nat := none
  addressLine1 : Option String := none
  addressLine2 : Option (Option String) := none
  city : Option String := none
  state : Option String := none
  postalCode : Option String := none
  country : Option (Option String) := none
  isPrimary : Option (Option Bool) := none
  label : Option (Option String) := none
  phone : Option (Option String) := none
  createdAt : Option Int := none
deriving Repr, DecidableEq

/-- The spread `{...address, ...updates}`. -/
def mergeAddress (address : UserAddress) (updates : AddressUpdates) : UserAddress := {
  id := updates.id.getD address.id
  userId := updates.userId.getD address.userId
  addressLine1 := updates.addressLine1.getD address.addressLine1
  addressLine2 := updates.addressLine2.getD address.addressLine2
  city := updates.city.getD address.city
  state := updates.state.getD address.state
  postalCode := updates.postalCode.getD address.postalCode
  country := updates.country.getD address.country
  isPrimary := updates.isPrimary.getD address.isPrimary
  label := updates.label.getD address.label
  phone := updates.phone.getD address.phone
  createdAt := updates.createdAt.getD address.createdAt }

/-- The clearing loop shared by `createUserAddress` and `updateUserAddress`:
take a snapshot of the current values (`Array.from(this.addresses.values())`),
filter it, and for each selected address write it back under its own id with
`isPrimary` set to `false`. -/
def clearPrimaries (pred : UserAddress → Bool) (m : List (Nat × UserAddress)) :
    List (Nat × UserAddress) :=
  ((mapValues m).filter pred).foldl
    (fun acc addr => mapSet addr.id { addr with isPrimary := some false } acc) m

/-- Entrywise effect of the clearing loop on a well-formed map (proved in
`clearPrimaries_eq`): a selected entry keeps its key and loses the primary
flag, any other entry is untouched. -/
def clearEntry (pred : UserAddress → Bool) (q : Nat × UserAddress) :
    Nat × UserAddress :=
  if pred q.2 then (q.1, { q.2 with isPrimary := some false }) else q

/-- `MemStorage.createUserAddress`.  When `data.isPrimary` is truthy (only a
literal `true` is), every other address of the same user is first demoted;
the stored record has `isPrimary := data.isPrimary || null` and the string
fields collapsed by `|| null`. -/
def createUserAddress (s : State) (data : InsertUserAddress) (now : Int) :
    UserAddress × State :=
  let id := s.currentAddressId
  let cleared :=
    if data.isPrimary = some true then
      clearPrimaries (fun addr => decide (addr.userId = data.userId)) s.addresses
    else s.addresses
  let newAddress : UserAddress := {
    id := id
    userId := data.userId
    addressLine1 := data.addressLine1
    addressLine2 := orNullStr data.addressLine2
    city := data.city
    state := data.state
    postalCode := data.postalCode
    country := orNullStr data.country
    isPrimary := if data.isPrimary = some true then some true else none
    label := orNullStr data.label
    phone := orNullStr data.phone
    createdAt := now }
  (newAddress, { s with addresses := mapSet id newAddress cleared,
                        currentAddressId := s.currentAddressId + 1 })

/-- `MemStorage.updateUserAddress`: finds the address by id and owner, and
when `updates.isPrimary` is truthy (a present literal `true`) demotes every
other address of that owner before writing the merged record. -/
def updateUserAddress (s : State) (id userId : Nat) (updates : AddressUpdates) :
    Except StorageError UserAddress × State :=
  match (mapValues s.addresses).find?
      (fun addr => decide (addr.id = id) && decide (addr.userId = userId)) with
  | none => (.error .addressNotFound, s)
  | some address =>
    let cleared :=
      if updates.isPrimary = some (some true) then
        clearPrimaries
          (fun addr => decide (addr.userId = userId) && decide (addr.id ≠ id))
          s.addresses
      else s.addresses
    let updatedAddress := mergeAddress address updates
    (.ok updatedAddress, { s with addresses := mapSet id updatedAddress cleared })

/-- The `Map` representation invariant `MemStorage` maintains for
`addresses`: distinct keys, each record stored under its own id, and ids
below the `currentIds.address` counter. -/
def WFAddresses (s : State) : Prop :=
  (s.addresses.map Prod.fst).Nodup ∧
  (∀ q ∈ s.addresses, q.2.id = q.1) ∧
  (∀ q ∈ s.addresses, q.1 < s.currentAddressId)

/-- How many addresses of the given user carry `isPrimary = true` (a
`null`/`false` flag is not primary). -/
def countPrimary (s : State) (userId : Nat) : Nat :=
  ((mapValues s.addresses).filter
    (fun addr => decide (addr.userId = userId)
      && decide (addr.isPrimary = some true))).length

/-! ### HTTP handlers (`routes/inventory.ts` and the auth routes module) -/

/-- Result of `POST /api/auth/login`. -/
inductive LoginResult where
  /-- 200: `req.session.user = {id, email}` and `{user: {email, isAdmin}}`. -/
  | success (sessionUserId : Nat) (sessionEmail : String) (isAdmin : Bool)
  /-- 401 `Invalid email or password`. -/
  | invalidCredentials
  /-- 403 `Your account has been suspended`. -/
  | suspended
deriving Repr, DecidableEq

/-- The login handler after schema parsing: credential check
(`!user || user.password !== password`) first, then the suspension check. -/
def login (s : State) (email password : String) : LoginResult :=
  match getUserByEmail s email with
  | none => .invalidCredentials
  | some user =>
    if user.password ≠ password then .invalidCredentials
    else if user.isSuspended then .suspended
    else .success user.id user.email user.isAdmin

/-- `randomBytes(3).toString('hex')` then `.toUpperCase()`: hex digits of one
nibble, already uppercased. -/
def hexDigitUpper (n : Nat) : Char :=
  (['0', '1', '2', '3', '4', '5', '6', '7', '8', '9',
    'A', 'B', 'C', 'D', 'E', 'F'].getD n '0')

def byteToHexUpper (b : Nat) : List Char :=
  [hexDigitUpper (b / 16), hexDigitUpper (b % 16)]

/-- The verification code of `POST /api/auth/register/init`:
`randomBytes(3).toString('hex').toUpperCase()` for random bytes
`b0 b1 b2 < 256`. -/
def genVerificationToken (b0 b1 b2 : Nat) : String :=
  String.mk (byteToHexUpper b0 ++ byteToHexUpper b1 ++ byteToHexUpper b2)

/-- Response of `POST /api/auth/register/init`. -/
inductive InitResponse where
  /-- 400 `Email already registered`. -/
  | emailAlreadyRegistered
  /-- 200 `Verification code sent to your email`. -/
  | codeSent (email : String)
  /-- 500 (an unexpected storage error reached the catch block). -/
  | registrationFailed
deriving Repr, DecidableEq

/-- The init handler up to and including the pending-record store: existing
full user blocks; otherwise a token is generated from the three random bytes
and stored with expiry `Date.now() + 30 * 60 * 1000`.  Delivery through the
external email/WhatsApp collaborators is outside the model. -/
def registerInit (s : State) (email : String) (now : Int) (b0 b1 b2 : Nat) :
    InitResponse × State :=
  match getUserByEmail s email with
  | some _ => (.emailAlreadyRegistered, s)
  | none =>
    let verificationToken := genVerificationToken b0 b1 b2
    let tokenExpiry := now + 30 * 60 * 1000
    match createPendingUser s email verificationToken tokenExpiry with
    | (.ok _, s1) => (.codeSent email, s1)
    | (.error _, s1) => (.registrationFailed, s1)

/-- Response of `PUT /api/inventory/stock/:productId`. -/
inductive StockRouteResponse where
  /-- 400 `Quantity must be a number`. -/
  | quantityNotANumber
  /-- 200 `{product}`. -/
  | updated (product : Product)
  /-- 500 `{error}` (a storage error reached the catch block). -/
  | serverError
deriving Repr, DecidableEq

/-- The stock route handler: `quantity = none` models a request body whose
`quantity` coerces to `NaN` (the only rejection, `if (isNaN(quantity))`);
any numeric quantity, zero included, reaches `updateProductStock`. -/
def stockRoute (s : State) (productId : Nat) (quantity : Option Int)
    (now : Int) : StockRouteResponse × State :=
  match quantity with
  | none => (.quantityNotANumber, s)
  | some q =>
    match updateProductStock s productId q now with
    | (.ok product, s1) => (.updated product, s1)
    | (.error _, s1) => (.serverError, s1)

/-! ### Concrete states for witnesses and counterexamples -/

def emptyState : State := {
  users := [], pendingUsers := [], products := [], messages := [],
  userPrefs := [], addresses := [], inventoryLogs := []
  currentUserId := 1, currentProductId := 1, currentMessageId := 1
  currentPreferenceId := 1, currentAddressId := 1, currentInventoryLogId := 1 }

def suspendedUser : User := {
  id := 1, email := "u@x.com", password := "pw", displayName := none
  mobileNumber := "", resetToken := none, resetTokenExpiry := none
  verificationToken := none, verificationTokenExpiry := none
  isVerified := true, isAdmin := false, isSuspended := true, createdAt := 0 }

def oneUserState : State := { emptyState with users := [(1, suspendedUser)], currentUserId := 2 }

def samplePending : PendingUser := {
  email := "new@user.com", verificationToken := some "ABC123"
  verificationTokenExpiry := some 1000 }

def onePendingState : State :=
  { emptyState with pendingUsers := [("new@user.com", samplePending)] }

def emptyTokenPending : PendingUser := {
  email := "e@t.com", verificationToken := some "", verificationTokenExpiry := some 1000 }

def emptyTokenState : State :=
  { emptyState with pendingUsers := [("e@t.com", emptyTokenPending)] }

def sampleProduct : Product := {
  id := 1, name := "Classic Cotton Shirt", description := some "Premium cotton formal shirt"
  price := 2999, imageUrl := "", category := "Formal Wear", featured := true
  stock := 10, minStock := some 5, createdAt := 0 }

def oneProductState : State :=
  { emptyState with products := [(1, sampleProduct)], currentProductId := 2 }

def stockThreeProduct : Product := {
  id := 1, name := "Casual Denim Jacket", description := none
  price := 4999, imageUrl := "", category := "Casual Wear", featured := false
  stock := 3, minStock := some 5, createdAt := 0 }

def lowStockState : State :=
  { emptyState with products := [(1, stockThreeProduct)], currentProductId := 2 }

def addrNoPrimary : UserAddress := {
  id := 1, userId := 1, addressLine1 := "12 Main", addressLine2 := none
  city := "Delhi", state := "DL", postalCode := "110001", country := none
  isPrimary := none, label := none, phone := none, createdAt := 0 }

def addrOtherPrimary : UserAddress := {
  id := 2, userId := 2, addressLine1 := "9 Side", addressLine2 := none
  city := "Mumbai", state := "MH", postalCode := "400001", country := none
  isPrimary := some true, label := none, phone := none, createdAt := 0 }

def twoOwnerAddrState : State :=
  { emptyState with addresses := [(1, addrNoPrimary), (2, addrOtherPrimary)]
                    currentAddressId := 3 }

def addrUser7 : UserAddress := {
  id := 1, userId := 7, addressLine1 := "Old Home", addressLine2 := none
  city := "Pune", state := "MH", postalCode := "411001", country := none
  isPrimary := some true, label := none, phone := none, createdAt := 0 }

def oneOwnerAddrState : State :=
  { emptyState with addresses := [(1, addrUser7)], currentAddressId := 2 }

def newPrimaryData : InsertUserAddress := {
  userId := 7, addressLine1 := "New Home", city := "Pune", state := "MH"
  postalCode := "411002", isPrimary := some true }

/-! ### Map lemmas -/

theorem mapAny_iff_mem [DecidableEq κ] (k : κ) (m : List (κ × β)) :
    (m.any (fun p => decide (p.1 = k)) = true) ↔ k ∈ m.map Prod.fst := by
  simp [List.any_eq_true, List.mem_map]

theorem mapGet_eq_none [DecidableEq κ] {k : κ} {m : List (κ × β)}
    (h : k ∉ m.map Prod.fst) : mapGet k m = none := by
  induction m with
  | nil => rfl
  | cons p rest ih =>
    simp only [List.map_cons, List.mem_cons] at h
    push_neg at h
    obtain ⟨h1, h2⟩ := h
    obtain ⟨k', v⟩ := p
    simp only [mapGet]
    rw [if_neg (by simpa using fun e => h1 e.symm)]
    exact ih h2

theorem mapGet_append_left [DecidableEq κ] {k : κ} {m m' : List (κ × β)}
    (h : mapGet k m = none) : mapGet k (m ++ m') = mapGet k m' := by
  induction m with
  | nil => rfl
  | cons p rest ih =>
    obtain ⟨k', v⟩ := p
    simp only [mapGet] at h ⊢
    by_cases hk : k' = k
    · simp [hk] at h
    · rw [if_neg hk] at h ⊢
      exact ih h

theorem mapGet_map_replace [DecidableEq κ] {k : κ} (v : β) :
    ∀ (m : List (κ × β)), k ∈ m.map Prod.fst →
      mapGet k (m.map (fun p => if p.1 = k then (k, v) else p)) = some v
  | [], h => by simp at h
  | (k', w) :: rest, h => by
    by_cases hk : k' = k
    · subst hk
      simp only [List.map_cons, if_true, eq_self_iff_true]
      simp [mapGet]
    · have hrest : k ∈ rest.map Prod.fst := by
        simp only [List.map_cons, List.mem_cons] at h
        rcases h with h | h
        · exact absurd h.symm hk
        · exact h
      simp only [List.map_cons]
      rw [if_neg hk]
      simp only [mapGet]
      rw [if_neg hk]
      exact mapGet_map_replace v rest hrest

theorem mapGet_mapSet_self [DecidableEq κ] (k : κ) (v : β) (m : List (κ × β)) :
    mapGet k (mapSet k v m) = some v := by
  unfold mapSet
  by_cases h : m.any (fun p => decide (p.1 = k)) = true
  · rw [if_pos h]
    exact mapGet_map_replace v m ((mapAny_iff_mem k m).mp h)
  · rw [if_neg h]
    have h' : k ∉ m.map Prod.fst := fun hm => h ((mapAny_iff_mem k m).mpr hm)
    rw [mapGet_append_left (mapGet_eq_none h')]
    simp [mapGet]

theorem mapGet_mapDelete_self [DecidableEq κ] (k : κ) :
    ∀ (m : List (κ × β)), mapGet k (mapDelete k m) = none
  | [] => rfl
  | (k', v) :: rest => by
    by_cases hk : k' = k
    · have hstep : mapDelete k ((k', v) :: rest) = mapDelete k rest := by
        simp [mapDelete, List.filter_cons, hk]
      rw [hstep]
      exact mapGet_mapDelete_self k rest
    · have hstep : mapDelete k ((k', v) :: rest) = (k', v) :: mapDelete k rest := by
        simp [mapDelete, List.filter_cons, hk]
      rw [hstep]
      simp only [mapGet]
      rw [if_neg hk]
      exact mapGet_mapDelete_self k rest

theorem mapSet_of_not_mem [DecidableEq κ] {k : κ} {m : List (κ × β)} (v : β)
    (h : k ∉ m.map Prod.fst) : mapSet k v m = m ++ [(k, v)] := by
  unfold mapSet
  rw [if_neg (fun ha => h ((mapAny_iff_mem k m).mp ha))]

theorem mapSet_map_fst_of_mem [DecidableEq κ] {k : κ} {m : List (κ × β)} (v : β)
    (h : k ∈ m.map Prod.fst) : (mapSet k v m).map Prod.fst = m.map Prod.fst := by
  unfold mapSet
  rw [if_pos ((mapAny_iff_mem k m).mpr h)]
  rw [List.map_map]
  apply List.map_congr_left
  intro p _
  by_cases hk : p.1 = k
  · simp [hk]
  · simp [hk]

theorem mapSet_nodup_keys [DecidableEq κ] {k : κ} {m : List (κ × β)} (v : β)
    (h : (m.map Prod.fst).Nodup) : ((mapSet k v m).map Prod.fst).Nodup := by
  by_cases hm : k ∈ m.map Prod.fst
  · rw [mapSet_map_fst_of_mem v hm]; exact h
  · rw [mapSet_of_not_mem v hm]
    simp only [List.map_append, List.map_cons, List.map_nil]
    rw [List.nodup_append]
    refine ⟨h, List.nodup_singleton _, ?_⟩
    intro a ha hak
    simp only [List.mem_singleton] at hak
    exact hm (hak ▸ ha)

theorem mapSet_length_of_mem [DecidableEq κ] {k : κ} {m : List (κ × β)} (v : β)
    (h : k ∈ m.map Prod.fst) : (mapSet k v m).length = m.length := by
  unfold mapSet
  rw [if_pos ((mapAny_iff_mem k m).mpr h)]
  exact List.length_map _ _

theorem map_replace_id [DecidableEq κ] {k : κ} {m : List (κ × β)} (v : β)
    (h : ∀ q ∈ m, q.1 ≠ k) :
    m.map (fun p => if p.1 = k then (k, v) else p) = m := by
  induction m with
  | nil => rfl
  | cons q rest ih =>
    simp only [List.map_cons]
    rw [if_neg (h q (List.mem_cons_self _ _))]
    rw [ih (fun q' hq' => h q' (List.mem_cons_of_mem _ hq'))]

theorem mapSet_cons_self [DecidableEq κ] {k : κ} {rest : List (κ × β)} (v w : β)
    (h : k ∉ rest.map Prod.fst) :
    mapSet k v ((k, w) :: rest) = (k, v) :: rest := by
  unfold mapSet
  rw [if_pos (by simp)]
  simp only [List.map_cons]
  congr 1
  exact map_replace_id v (fun q hq hqk => h (hqk ▸ List.mem_map_of_mem _ hq))

theorem mapSet_append_right [DecidableEq κ] {k : κ} {pre t : List (κ × β)} (v : β)
    (hpre : k ∉ pre.map Prod.fst) (ht : k ∈ t.map Prod.fst) :
    mapSet k v (pre ++ t) = pre ++ mapSet k v t := by
  unfold mapSet
  have hany_t : t.any (fun p => decide (p.1 = k)) = true := (mapAny_iff_mem k t).mpr ht
  have hany : (pre ++ t).any (fun p => decide (p.1 = k)) = true := by
    rw [List.any_append]
    simp [hany_t]
  rw [if_pos hany, if_pos hany_t, List.map_append]
  congr 1
  exact map_replace_id v (fun q hq hqk => hpre (hqk ▸ List.mem_map_of_mem _ hq))

theorem countP_keys_eq_one [DecidableEq κ] {k : κ} :
    ∀ {m : List (κ × β)}, (m.map Prod.fst).Nodup → k ∈ m.map Prod.fst →
      m.countP (fun q => decide (q.1 = k)) = 1 := by
  intro m
  induction m with
  | nil => intro _ hk; simp at hk
  | cons q rest ih =>
    intro hnd hk
    simp only [List.map_cons, List.nodup_cons] at hnd
    obtain ⟨hq1, hndrest⟩ := hnd
    rw [List.countP_cons]
    by_cases hqk : q.1 = k
    · have hzero : rest.countP (fun q' => decide (q'.1 = k)) = 0 := by
        rw [List.countP_eq_zero]
        intro q' hq'
        simp only [decide_eq_true_eq]
        intro hbad
        exact hq1 (hqk ▸ hbad ▸ List.mem_map_of_mem _ hq')
      simp [hzero, hqk]
    · have hkrest : k ∈ rest.map Prod.fst := by
        simp only [List.map_cons, List.mem_cons] at hk
        rcases hk with h | h
        · exact absurd h.symm hqk
        · exact h
      simp [ih hndrest hkrest, hqk]

/-! ### Claims -/

/-- C4: `verifyEmailToken` is a pure check — for every email, token and
storage state it leaves the entire state (users, pending registrations,
products, logs, preferences, addresses) unchanged, whichever boolean it
returns. -/
theorem C4_verifyEmailToken_pure (s : State) (email token : String) (now : Int) :
    (verifyEmailToken s email token now).2 = s := by
  unfold verifyEmailToken
  rcases h : getPendingUserByEmail s email with _ | p
  · rfl
  · rcases ht : p.verificationToken with _ | t <;>
      rcases he : p.verificationTokenExpiry with _ | e
    all_goals simp only [ht, he]
    all_goals first
      | rfl
      | (split_ifs <;> rfl)

/-- C3 fails as stated: in a state whose pending record stores the empty
string as its token, a verify call with the (equal) empty-string input
token at a time before the expiry returns `false`, because the source's
truthiness guard `!pendingUser.verificationToken` treats the empty string
as an absent token. -/
theorem C3_counterexample :
    getPendingUserByEmail emptyTokenState "e@t.com" = some emptyTokenPending ∧
    emptyTokenPending.verificationToken = some "" ∧
    emptyTokenPending.verificationTokenExpiry = some 1000 ∧
    (500 : Int) ≤ 1000 ∧
    (verifyEmailToken emptyTokenState "e@t.com" "" 500).1 = false := by
  decide

/-- C3 (amended): `verifyEmailToken(email, token)` returns true iff the
input token is non-empty, a pending record exists for the email, its stored
token equals the input token, and the current time is at or before the
stored expiry (so it fails at `expiry + 1`, and succeeds right after `init`
exactly with the issued code). -/
theorem C3_verifyEmailToken_iff (s : State) (email token : String) (now : Int) :
    (verifyEmailToken s email token now).1 = true ↔
      token ≠ "" ∧ ∃ p, getPendingUserByEmail s email = some p ∧
        p.verificationToken = some token ∧
        ∃ e, p.verificationTokenExpiry = some e ∧ now ≤ e := by
  unfold verifyEmailToken
  rcases h : getPendingUserByEmail s email with _ | p
  · simp
  · rcases ht : p.verificationToken with _ | t
    · simp [ht]
    · rcases he : p.verificationTokenExpiry with _ | e
      · simp [ht, he]
      · simp only [ht, he]
        split_ifs with h1 h2 h3
        · subst h1
          simp only [false_iff]
          rintro ⟨hne, p', hp', htok, -⟩
          cases hp'
          rw [ht] at htok
          exact hne (Option.some.inj htok).symm
        · simp only [false_iff]
          rintro ⟨-, p', hp', htok, -⟩
          cases hp'
          rw [ht] at htok
          exact h2 (Option.some.inj htok)
        · simp only [false_iff]
          rintro ⟨-, p', hp', -, e', he', hle⟩
          cases hp'
          rw [he] at he'
          cases Option.some.inj he'
          omega
        · rw [not_not] at h2
          subst h2
          simp only [true_iff]
          exact ⟨h1, p, rfl, ht, e, he, by omega⟩

/-- C9: the login handler returns 401 when the email matches no user or the
password differs (the credential check precedes the suspension check, so a
suspended account with a wrong password also gets 401), 403 when the
credentials match but the account is suspended, and on success stores the
user's id and email in the session. -/
theorem C9_login_spec (s : State) (email password : String) :
    (getUserByEmail s email = none →
      login s email password = .invalidCredentials) ∧
    (∀ u, getUserByEmail s email = some u → u.password ≠ password →
      login s email password = .invalidCredentials) ∧
    (∀ u, getUserByEmail s email = some u → u.password = password →
      u.isSuspended = true → login s email password = .suspended) ∧
    (∀ u, getUserByEmail s email = some u → u.password = password →
      u.isSuspended = false →
      login s email password = .success u.id u.email u.isAdmin) := by
  refine ⟨?_, ?_, ?_, ?_⟩
  · intro h; unfold login; rw [h]
  · intro u h hpw; unfold login; rw [h]
    simp [hpw]
  · intro u h hpw hsusp; unfold login; rw [h]
    simp [hpw, hsusp]
  · intro u h hpw hsusp; unfold login; rw [h]
    simp [hpw, hsusp]

/-- Witness for C9: the suspended test user with a wrong password is
rejected as 401 (invalid credentials), not 403. -/
theorem C9_login_spec_witness :
    login oneUserState "u@x.com" "wrong" = .invalidCredentials :=
  (C9_login_spec oneUserState "u@x.com" "wrong").2.1 suspendedUser
    (by decide) (by decide)

theorem hexDigitUpper_isUpperAlnum :
    ∀ n, n < 16 → ((hexDigitUpper n).isDigit || (hexDigitUpper n).isUpper) = true := by
  decide

/-- C8: registration init always generates a 6-character token whose
characters are uppercase alphanumerics (hex digits `0-9A-F` after
`toUpperCase`), and stores the pending record with expiry exactly
30 minutes (1 800 000 ms) after generation, whatever the random bytes. -/
theorem C8_register_init_token (s : State) (email : String) (now : Int)
    (b0 b1 b2 : Nat) (hb0 : b0 < 256) (hb1 : b1 < 256) (hb2 : b2 < 256)
    (hnew : getUserByEmail s email = none) :
    (genVerificationToken b0 b1 b2).length = 6 ∧
    (∀ c ∈ (genVerificationToken b0 b1 b2).data,
      (c.isDigit || c.isUpper) = true) ∧
    mapGet email (registerInit s email now b0 b1 b2).2.pendingUsers =
      some { email := email
             verificationToken := some (genVerificationToken b0 b1 b2)
             verificationTokenExpiry := some (now + 30 * 60 * 1000) } := by
  refine ⟨rfl, ?_, ?_⟩
  · intro c hc
    have hmem : c ∈ byteToHexUpper b0 ++ byteToHexUpper b1 ++ byteToHexUpper b2 := hc
    have hdig : ∀ b : Nat, b < 256 → c ∈ byteToHexUpper b →
        (c.isDigit || c.isUpper) = true := by
      intro b hb hcb
      simp only [byteToHexUpper, List.mem_cons, List.not_mem_nil, or_false] at hcb
      rcases hcb with rfl | rfl
      · exact hexDigitUpper_isUpperAlnum (b / 16)
          (Nat.div_lt_of_lt_mul (by omega : b < 16 * 16))
      · exact hexDigitUpper_isUpperAlnum (b % 16) (Nat.mod_lt _ (by norm_num))
    rcases List.mem_append.mp hmem with h01 | h2
    · rcases List.mem_append.mp h01 with h0 | h1
      · exact hdig b0 hb0 h0
      · exact hdig b1 hb1 h1
    · exact hdig b2 hb2 h2
  · unfold registerInit createPendingUser
    rw [hnew]
    dsimp only
    exact mapGet_mapSet_self _ _ _

/-- Closed-form run of `updateProductStock` on an existing product: the
clamped stock write followed by the ledger append (shared by the stock
claims). -/
theorem updateProductStock_eq (s : State) (productId : Nat) (delta now : Int)
    (p : Product) (hp : mapGet productId s.products = some p) :
    updateProductStock s productId delta now =
      (.ok { p with stock := max 0 (p.stock + delta) },
       { s with
         products := mapSet productId
           { p with stock := max 0 (p.stock + delta) } s.products
         inventoryLogs := mapSet s.currentInventoryLogId
           { id := s.currentInventoryLogId, productId := productId
             quantity := delta
             type := if delta > 0 then "add" else "remove"
             note := orNullStr (some ("Stock updated by "
               ++ (if delta > 0 then "adding" else "removing")
               ++ " " ++ toString delta.natAbs ++ " units"))
             timestamp := now }
           s.inventoryLogs
         currentInventoryLogId := s.currentInventoryLogId + 1 }) := by
  unfold updateProductStock updateProduct createInventoryLog
  rw [hp]
  rfl

/-- C1: for every existing product and every delta, `updateProductStock`
sets the stock to `max 0 (stock + delta)` (clamped at zero), returns the
updated product, and appends exactly one ledger entry whose quantity is the
requested delta verbatim and whose type tag is `'add'` iff the delta is
positive. -/
theorem C1_updateProductStock_spec (s : State) (productId : Nat)
    (delta now : Int) (p : Product)
    (hp : mapGet productId s.products = some p)
    (hfresh : s.currentInventoryLogId ∉ s.inventoryLogs.map Prod.fst) :
    ∃ s', updateProductStock s productId delta now
        = (.ok { p with stock := max 0 (p.stock + delta) }, s') ∧
      mapGet productId s'.products
        = some { p with stock := max 0 (p.stock + delta) } ∧
      ∃ entry, s'.inventoryLogs
          = s.inventoryLogs ++ [(s.currentInventoryLogId, entry)] ∧
        entry.productId = productId ∧ entry.quantity = delta ∧
        entry.type = (if delta > 0 then "add" else "remove") := by
  refine ⟨_, updateProductStock_eq s productId delta now p hp, ?_, ?_⟩
  · exact mapGet_mapSet_self _ _ _
  · exact ⟨_, mapSet_of_not_mem _ hfresh, rfl, rfl, rfl⟩

/-- Witness for C1: the spec's own example — delta `-1000` on a product
with stock 10 clamps the stock to 0 while the ledger entry records `-1000`
and tag `'remove'`. -/
theorem C1_updateProductStock_spec_witness :
    ∃ s', updateProductStock oneProductState 1 (-1000) 0
        = (.ok { sampleProduct with stock := max 0 (sampleProduct.stock + (-1000)) }, s') ∧
      mapGet 1 s'.products
        = some { sampleProduct with stock := max 0 (sampleProduct.stock + (-1000)) } ∧
      ∃ entry, s'.inventoryLogs
          = oneProductState.inventoryLogs ++ [(oneProductState.currentInventoryLogId, entry)] ∧
        entry.productId = 1 ∧ entry.quantity = -1000 ∧
        entry.type = (if (-1000 : Int) > 0 then "add" else "remove") :=
  C1_updateProductStock_spec oneProductState 1 (-1000) 0 sampleProduct
    (by decide) (by decide)

/-- C2: `completeUserRegistration` succeeds iff a pending record exists for
the email (token and expiry are not re-checked): on success it creates a
full user with `isVerified = true` and deletes the pending record, so a
second call fails with the not-found error; with no pending record it fails
with that error and changes nothing. -/
theorem C2_completeUserRegistration_spec (s : State) (email pw pw2 : String)
    (now now2 : Int) :
    (getPendingUserByEmail s email = none →
      completeUserRegistration s email pw now
        = (.error .noPendingRegistration, s)) ∧
    (∀ p, getPendingUserByEmail s email = some p →
      ∃ u s', completeUserRegistration s email pw now = (.ok u, s') ∧
        u.email = email ∧ u.password = pw ∧ u.isVerified = true ∧
        mapGet u.id s'.users = some u ∧
        getPendingUserByEmail s' email = none ∧
        completeUserRegistration s' email pw2 now2
          = (.error .noPendingRegistration, s')) := by
  constructor
  · intro h
    unfold completeUserRegistration
    rw [h]
  · intro p hp
    unfold completeUserRegistration createUser
    rw [hp]
    dsimp only
    refine ⟨_, _, rfl, rfl, rfl, rfl, mapGet_mapSet_self _ _ _, ?_, ?_⟩
    · exact mapGet_mapDelete_self _ _
    · unfold getPendingUserByEmail
      dsimp only
      rw [mapGet_mapDelete_self]

/-- Witness for C2 on a state holding one pending registration. -/
theorem C2_completeUserRegistration_spec_witness :
    ∃ u s', completeUserRegistration onePendingState "new@user.com" "secret1" 0
        = (.ok u, s') ∧
      u.email = "new@user.com" ∧ u.password = "secret1" ∧ u.isVerified = true ∧
      mapGet u.id s'.users = some u ∧
      getPendingUserByEmail s' "new@user.com" = none ∧
      completeUserRegistration s' "new@user.com" "secret2" 7
        = (.error .noPendingRegistration, s') :=
  (C2_completeUserRegistration_spec onePendingState "new@user.com"
    "secret1" "secret2" 0 7).2 samplePending (by decide)

/-- C5: the pending store keeps at most one record per email —
`createPendingUser` is blocked (state unchanged) when a full user with the
email exists; otherwise it overwrites any prior pending record in place
(same store size when the email was present, lookup finds the new code and
expiry) and preserves distinctness of the stored emails. -/
theorem C5_createPendingUser_spec (s : State) (email token : String)
    (expiry : Int) :
    (∀ u, getUserByEmail s email = some u →
      createPendingUser s email token expiry = (.error .userAlreadyExists, s)) ∧
    (getUserByEmail s email = none →
      ∃ s', createPendingUser s email token expiry =
          (.ok { email := email, verificationToken := some token
                 verificationTokenExpiry := some expiry }, s') ∧
        getPendingUserByEmail s' email =
          some { email := email, verificationToken := some token
                 verificationTokenExpiry := some expiry } ∧
        (email ∈ s.pendingUsers.map Prod.fst →
          s'.pendingUsers.length = s.pendingUsers.length) ∧
        ((s.pendingUsers.map Prod.fst).Nodup →
          (s'.pendingUsers.map Prod.fst).Nodup)) := by
  constructor
  · intro u hu
    unfold createPendingUser
    rw [hu]
  · intro hnone
    unfold createPendingUser
    rw [hnone]
    dsimp only
    refine ⟨_, rfl, mapGet_mapSet_self _ _ _, ?_, ?_⟩
    · intro hmem
      exact mapSet_length_of_mem _ hmem
    · intro hnd
      exact mapSet_nodup_keys _ hnd

/-- Witness for C5: both branches at concrete states — a full user blocks,
and a second `init` for a pending email overwrites in place. -/
theorem C5_createPendingUser_spec_witness :
    (createPendingUser oneUserState "u@x.com" "TOK111" 99
      = (.error .userAlreadyExists, oneUserState)) ∧
    (∃ s', createPendingUser onePendingState "new@user.com" "XYZ789" 500 =
        (.ok { email := "new@user.com", verificationToken := some "XYZ789"
               verificationTokenExpiry := some 500 }, s') ∧
      getPendingUserByEmail s' "new@user.com" =
        some { email := "new@user.com", verificationToken := some "XYZ789"
               verificationTokenExpiry := some 500 } ∧
      ("new@user.com" ∈ onePendingState.pendingUsers.map Prod.fst →
        s'.pendingUsers.length = onePendingState.pendingUsers.length) ∧
      ((onePendingState.pendingUsers.map Prod.fst).Nodup →
        (s'.pendingUsers.map Prod.fst).Nodup)) :=
  ⟨(C5_createPendingUser_spec oneUserState "u@x.com" "TOK111" 99).1
      suspendedUser (by decide),
   (C5_createPendingUser_spec onePendingState "new@user.com" "XYZ789" 500).2
      (by decide)⟩

/-- C10: the nonzero-delta precondition of the spec is not enforced — a
zero delta on an existing product succeeds, leaves the stock unchanged, and
still appends a ledger entry with quantity 0 and type tag `'remove'`; the
stock route rejects only a non-numeric quantity, not zero. -/
theorem C10_zero_delta_spec (s : State) (productId : Nat) (now : Int)
    (p : Product) (hp : mapGet productId s.products = some p)
    (hst : 0 ≤ p.stock)
    (hfresh : s.currentInventoryLogId ∉ s.inventoryLogs.map Prod.fst) :
    (∃ s', updateProductStock s productId 0 now = (.ok p, s') ∧
      mapGet productId s'.products = some p ∧
      ∃ entry, s'.inventoryLogs
          = s.inventoryLogs ++ [(s.currentInventoryLogId, entry)] ∧
        entry.quantity = 0 ∧ entry.type = "remove") ∧
    (stockRoute s productId none now).1 = .quantityNotANumber ∧
    (stockRoute s productId (some 0) now).1 = .updated p := by
  have hmax : max 0 (p.stock + 0) = p.stock := by omega
  have hsame : ({ p with stock := max 0 (p.stock + 0) } : Product) = p := by
    rw [hmax]
  have heq := updateProductStock_eq s productId 0 now p hp
  rw [hsame] at heq
  refine ⟨⟨_, heq, ?_, ?_⟩, rfl, ?_⟩
  · have := mapGet_mapSet_self productId
      ({ p with stock := max 0 (p.stock + 0) } : Product) s.products
    rwa [hsame] at this
  · exact ⟨_, mapSet_of_not_mem _ hfresh, rfl, rfl⟩
  · unfold stockRoute
    dsimp only
    rw [heq]

/-- Witness for C10 on the sample product with stock 10. -/
theorem C10_zero_delta_spec_witness :
    (∃ s', updateProductStock oneProductState 1 0 0 = (.ok sampleProduct, s') ∧
      mapGet 1 s'.products = some sampleProduct ∧
      ∃ entry, s'.inventoryLogs
          = oneProductState.inventoryLogs
            ++ [(oneProductState.currentInventoryLogId, entry)] ∧
        entry.quantity = 0 ∧ entry.type = "remove") ∧
    (stockRoute oneProductState 1 none 0).1 = .quantityNotANumber ∧
    (stockRoute oneProductState 1 (some 0) 0).1 = .updated sampleProduct :=
  C10_zero_delta_spec oneProductState 1 0 sampleProduct
    (by decide) (by decide) (by decide)

/-- Witness for C8 at concrete random bytes `(0, 255, 171)` and a fresh
email in the empty state. -/
theorem C8_register_init_token_witness :
    (genVerificationToken 0 255 171).length = 6 ∧
    (∀ c ∈ (genVerificationToken 0 255 171).data,
      (c.isDigit || c.isUpper) = true) ∧
    mapGet "a@b.c" (registerInit emptyState "a@b.c" 0 0 255 171).2.pendingUsers =
      some { email := "a@b.c"
             verificationToken := some (genVerificationToken 0 255 171)
             verificationTokenExpiry := some (0 + 30 * 60 * 1000) } :=
  C8_register_init_token emptyState "a@b.c" 0 0 255 171
    (by decide) (by decide) (by decide) (by decide)

/-- C6 fails as stated: with a supplied threshold of `0`, the truthiness
test `if (threshold)` takes the `minStock || 5` branch, so a product with
stock 3 (and minStock 5) is returned even though the claimed filter
`stock <= (threshold ?? minStock ?? 5) = 0` excludes it — the output
differs from the spec-worded filter. -/
theorem C6_counterexample :
    stockThreeProduct ∈ (getLowStockProducts lowStockState (some 0)).1 ∧
    ¬ (stockThreeProduct.stock ≤
        ((some (0 : Int)).getD (stockThreeProduct.minStock.getD 5))) ∧
    stockThreeProduct ∉ getLowStockProductsSpec lowStockState (some 0) := by
  refine ⟨?_, by decide, ?_⟩
  · unfold getLowStockProducts
    refine List.mem_mergeSort.mpr ?_
    decide
  · unfold getLowStockProductsSpec
    intro hmem
    rw [List.mem_mergeSort] at hmem
    revert hmem
    decide

/-- C6 (amended): `getLowStockProducts` returns the products with
`stock <= threshold` when the supplied threshold is nonzero, and the
products with `stock <= (minStock` if nonzero and non-null, else `5)` when
the threshold is absent or zero (JS truthiness), sorted ascending by
stock, and mutates nothing. -/
theorem C6_getLowStockProducts_spec (s : State) (threshold : Option Int) :
    (getLowStockProducts s threshold).2 = s ∧
    (getLowStockProducts s threshold).1.Perm
      ((mapValues s.products).filter (lowStockPred threshold)) ∧
    (∀ product : Product, lowStockPred threshold product = true ↔
      ((∃ t, threshold = some t ∧ t ≠ 0 ∧ product.stock ≤ t) ∨
       ((threshold = none ∨ threshold = some 0) ∧
         product.stock ≤ minStockOr5 product))) ∧
    (getLowStockProducts s threshold).1.Pairwise
      (fun a b => a.stock ≤ b.stock) := by
  refine ⟨rfl, List.mergeSort_perm _ _, ?_, ?_⟩
  · intro product
    rcases threshold with _ | t
    · simp [lowStockPred]
    · unfold lowStockPred
      by_cases ht : t = 0
      · subst ht
        simp
      · simp [ht]
  · have hs := @List.sorted_mergeSort Product
      (fun a b : Product => decide (a.stock ≤ b.stock))
      (fun a b c hab hbc => by
        simp only [decide_eq_true_eq] at hab hbc ⊢
        omega)
      (fun a b => by
        simp only [Bool.or_eq_true, decide_eq_true_eq]
        omega)
      ((mapValues s.products).filter (lowStockPred threshold))
    exact hs.imp (fun h => by simpa using h)

theorem clearPrimaries_aux (pred : UserAddress → Bool) :
    ∀ (m pre : List (Nat × UserAddress)),
      ((pre ++ m).map Prod.fst).Nodup →
      (∀ q ∈ m, q.2.id = q.1) →
      ((mapValues m).filter pred).foldl
          (fun acc addr => mapSet addr.id { addr with isPrimary := some false } acc)
          (pre ++ m)
        = pre ++ m.map (clearEntry pred)
  | [], pre, _, _ => by simp [mapValues]
  | (k, v) :: rest, pre, hnd, hid => by
    have hvid : v.id = k := hid (k, v) (List.mem_cons_self _ _)
    have hnd' := hnd
    rw [List.map_append, List.nodup_append] at hnd'
    obtain ⟨hndpre, hndm, hdisj⟩ := hnd'
    have hkm : k ∈ ((k, v) :: rest).map Prod.fst := by simp
    have hk_pre : k ∉ pre.map Prod.fst := fun hkp => hdisj hkp hkm
    have hk_rest : k ∉ rest.map Prod.fst := by
      simp only [List.map_cons, List.nodup_cons] at hndm
      exact hndm.1
    have hidrest : ∀ q ∈ rest, q.2.id = q.1 :=
      fun q hq => hid q (List.mem_cons_of_mem _ hq)
    have hvals : mapValues ((k, v) :: rest) = v :: mapValues rest := rfl
    rw [hvals]
    by_cases hp : pred v = true
    · rw [List.filter_cons_of_pos hp, List.foldl_cons]
      have hstep : mapSet v.id { v with isPrimary := some false } (pre ++ (k, v) :: rest)
          = (pre ++ [(k, { v with isPrimary := some false })]) ++ rest := by
        rw [hvid, mapSet_append_right _ hk_pre (by simp),
          mapSet_cons_self _ _ hk_rest, List.append_cons]
      rw [hstep]
      have hnd2 : (((pre ++ [(k, { v with isPrimary := some false })]) ++ rest).map
          Prod.fst).Nodup := by
        have hkeys : ((pre ++ [(k, { v with isPrimary := some false })]) ++ rest).map
            Prod.fst = ((pre ++ (k, v) :: rest).map Prod.fst) := by simp
        rw [hkeys]
        exact hnd
      rw [clearPrimaries_aux pred rest _ hnd2 hidrest]
      simp [clearEntry, hp]
    · rw [List.filter_cons_of_neg hp]
      rw [List.append_cons pre (k, v) rest]
      have hnd2 : (((pre ++ [(k, v)]) ++ rest).map Prod.fst).Nodup := by
        have hkeys : ((pre ++ [(k, v)]) ++ rest).map Prod.fst
            = ((pre ++ (k, v) :: rest).map Prod.fst) := by simp
        rw [hkeys]
        exact hnd
      rw [clearPrimaries_aux pred rest _ hnd2 hidrest]
      simp [clearEntry, hp]

theorem clearPrimaries_eq (pred : UserAddress → Bool) (m : List (Nat × UserAddress))
    (hnd : (m.map Prod.fst).Nodup) (hid : ∀ q ∈ m, q.2.id = q.1) :
    clearPrimaries pred m = m.map (clearEntry pred) := by
  have h := clearPrimaries_aux pred m [] (by simpa using hnd) hid
  simpa [clearPrimaries] using h

theorem clearEntry_fst (pred : UserAddress → Bool) (q : Nat × UserAddress) :
    (clearEntry pred q).1 = q.1 := by
  unfold clearEntry
  by_cases h : pred q.2 = true <;> simp [h]

theorem map_clear_keys (pred : UserAddress → Bool) (m : List (Nat × UserAddress)) :
    (m.map (clearEntry pred)).map Prod.fst = m.map Prod.fst := by
  rw [List.map_map]
  apply List.map_congr_left
  intro q _
  exact clearEntry_fst pred q

theorem filter_primary_cleared (uid : Nat) (m : List (Nat × UserAddress)) :
    ((m.map (clearEntry (fun addr => decide (addr.userId = uid)))).map
        Prod.snd).filter
      (fun addr => decide (addr.userId = uid)
        && decide (addr.isPrimary = some true)) = [] := by
  refine List.filter_eq_nil_iff.mpr ?_
  intro a ha
  rw [List.map_map] at ha
  obtain ⟨q, hq, rfl⟩ := List.mem_map.mp ha
  by_cases h : q.2.userId = uid <;> simp [Function.comp, clearEntry, h]

/-- C7 fails as stated: an `updateUserAddress` that sets `isPrimary = true`
and at the same time reassigns the address to another user (`userId` is part
of `Partial<UserAddress>` and is spread into the record) demotes only the
old owner's other addresses — afterwards the old owner has zero primary
addresses and the new owner has two. -/
theorem C7_counterexample :
    (updateUserAddress twoOwnerAddrState 1 1
        { isPrimary := some (some true), userId := some 2 }).1
      = .ok { addrNoPrimary with userId := 2, isPrimary := some true } ∧
    countPrimary (updateUserAddress twoOwnerAddrState 1 1
        { isPrimary := some (some true), userId := some 2 }).2 1 = 0 ∧
    countPrimary (updateUserAddress twoOwnerAddrState 1 1
        { isPrimary := some (some true), userId := some 2 }).2 2 = 2 := by
  refine ⟨rfl, by decide, by decide⟩

/-- C7 (amended): after any `createUserAddress` with `isPrimary = true`, and
after any successful `updateUserAddress` that sets `isPrimary = true` and
does not reassign the address to a different user, the owning user has
exactly one primary address, in every state satisfying the map
representation invariant. -/
theorem C7_single_primary (s : State) (now : Int) :
    (∀ data : InsertUserAddress, data.isPrimary = some true → WFAddresses s →
      countPrimary (createUserAddress s data now).2 data.userId = 1) ∧
    (∀ (id userId : Nat) (updates : AddressUpdates) (a : UserAddress) (s' : State),
      updates.isPrimary = some (some true) →
      (updates.userId = none ∨ updates.userId = some userId) →
      WFAddresses s →
      updateUserAddress s id userId updates = (.ok a, s') →
      countPrimary s' userId = 1) := by
  constructor
  · intro data hdp hwf
    obtain ⟨hnd, hid, hlt⟩ := hwf
    have hfresh : s.currentAddressId ∉ s.addresses.map Prod.fst := by
      intro hmem
      obtain ⟨q, hq, hq1⟩ := List.mem_map.mp hmem
      have := hlt q hq
      omega
    unfold createUserAddress
    rw [hdp]
    rw [if_pos rfl, if_pos rfl]
    dsimp only
    rw [clearPrimaries_eq _ _ hnd hid]
    rw [mapSet_of_not_mem _ (by rw [map_clear_keys]; exact hfresh)]
    unfold countPrimary mapValues
    dsimp only
    rw [List.map_append, List.filter_append, List.length_append]
    rw [filter_primary_cleared]
    simp
  · intro id uid u a s' hup huid hwf hrun
    obtain ⟨hnd, hid, -⟩ := hwf
    unfold updateUserAddress at hrun
    rcases hfind : (mapValues s.addresses).find?
        (fun addr => decide (addr.id = id) && decide (addr.userId = uid)) with _ | a0
    · rw [hfind] at hrun
      simp [Prod.ext_iff] at hrun
    · rw [hfind] at hrun
      rw [hup, if_pos rfl] at hrun
      dsimp only at hrun
      have hprop := List.find?_some hfind
      simp only [Bool.and_eq_true, decide_eq_true_eq] at hprop
      obtain ⟨ha0id, ha0uid⟩ := hprop
      have hmem0 := List.mem_of_find?_eq_some hfind
      unfold mapValues at hmem0
      obtain ⟨q0, hq0, hq0v⟩ := List.mem_map.mp hmem0
      have hq0key : q0.1 = id := by rw [← hid q0 hq0, hq0v, ha0id]
      have hidmem : id ∈ s.addresses.map Prod.fst :=
        hq0key ▸ List.mem_map_of_mem _ hq0
      rw [Prod.ext_iff] at hrun
      obtain ⟨hfst, hsnd⟩ := hrun
      simp only [Except.ok.injEq] at hfst
      subst hfst
      subst hsnd
      dsimp only
      rw [clearPrimaries_eq _ _ hnd hid]
      have hmem' : id ∈ (s.addresses.map (clearEntry (fun addr =>
          decide (addr.userId = uid) && decide (addr.id ≠ id)))).map Prod.fst := by
        rw [map_clear_keys]
        exact hidmem
      unfold countPrimary mapValues
      dsimp only
      rw [show mapSet id (mergeAddress a0 u)
            (s.addresses.map (clearEntry (fun addr =>
              decide (addr.userId = uid) && decide (addr.id ≠ id))))
          = (s.addresses.map (clearEntry (fun addr =>
              decide (addr.userId = uid) && decide (addr.id ≠ id)))).map
              (fun p => if p.1 = id then (id, mergeAddress a0 u) else p) from by
        unfold mapSet
        rw [if_pos ((mapAny_iff_mem _ _).mpr hmem')]]
      rw [List.map_map, List.map_map]
      rw [← List.countP_eq_length_filter]
      rw [List.countP_map]
      rw [List.countP_congr ?pointwise]
      case _ => exact countP_keys_eq_one hnd hidmem
      case pointwise =>
        intro q hq
        have hqid2 : q.2.id = q.1 := hid q hq
        by_cases hqid : q.1 = id
        · have hmu : (mergeAddress a0 u).userId = uid := by
            unfold mergeAddress
            rcases huid with h | h <;> simp [h, ha0uid]
          have hmp : (mergeAddress a0 u).isPrimary = some true := by
            unfold mergeAddress
            simp [hup]
          simp [Function.comp, clearEntry_fst, hqid, hmu, hmp]
        · by_cases hcl : (decide (q.2.userId = uid) && decide (q.2.id ≠ id)) = true
          · have hce : clearEntry (fun addr =>
                decide (addr.userId = uid) && decide (addr.id ≠ id)) q
                = (q.1, { q.2 with isPrimary := some false }) := by
              unfold clearEntry
              rw [if_pos hcl]
            simp only [Function.comp, hce]
            simp [hqid]
          · have hce : clearEntry (fun addr =>
                decide (addr.userId = uid) && decide (addr.id ≠ id)) q = q := by
              unfold clearEntry
              rw [if_neg (by simpa using hcl)]
            have huid2 : ¬ q.2.userId = uid := by
              simp only [Bool.and_eq_true, decide_eq_true_eq] at hcl
              intro hbad
              rw [hqid2] at hcl
              exact hqid (by
                rcases not_and_or.mp hcl with h | h
                · exact absurd hbad h
                · exact not_not.mp h)
            simp only [Function.comp, hce]
            simp [huid2, hqid]

/-- Witness for the amended C7: user 7 already has a primary address; both a
new primary address and an owner-preserving primary update leave exactly one
primary. -/
theorem C7_single_primary_witness :
    countPrimary (createUserAddress oneOwnerAddrState newPrimaryData 0).2 7 = 1 ∧
    countPrimary (updateUserAddress oneOwnerAddrState 1 7
        { isPrimary := some (some true) }).2 7 = 1 :=
  ⟨(C7_single_primary oneOwnerAddrState 0).1 newPrimaryData rfl
      ⟨by decide, by decide, by decide⟩,
   (C7_single_primary oneOwnerAddrState 0).2 1 7 { isPrimary := some (some true) }
      (mergeAddress addrUser7 { isPrimary := some (some true) })
      (updateUserAddress oneOwnerAddrState 1 7 { isPrimary := some (some true) }).2
      rfl (Or.inl rfl) ⟨by decide, by decide, by decide⟩ rfl⟩

end VG
